import Mathlib

/-!
Verification of the buffstreams length-prefixed framing layer.

The Go sources are embedded shallowly: machine integers become `Nat` with
explicit `% 2 ^ w` where overflow matters, byte slices become `List Nat`
(each entry a byte value, reduced `% 256` at use sites), fallible calls
return `Option`/`Except`-style results, and a Go runtime panic is a
distinguished constructor of `GoResult`.  Socket I/O is modelled by
explicit state passing: the incoming side of a TCP connection is a byte
stream plus a schedule of chunk sizes the OS happens to deliver per
`Read` call, and the outgoing side is a schedule of per-`Write` outcomes.
-/

/-- The error values that the embedded code paths can surface.  The first
three are package-level sentinel errors of the source
(`io.EOF`, `ErrZeroBytesReadHeader`, `ErrLessThanZeroBytesReadHeader` in
src/unnamed/part_017, `ErrAlreadyOpened` and `ErrNotOpened` in
src/manager.go); the rest stand for the opaque transport errors the Go
runtime returns (closed-socket use, broken writes, failed dial/bind). -/
inductive GoError where
  | ioEOF
  | errZeroBytesReadHeader
  | errLessThanZeroBytesReadHeader
  | errAlreadyOpened
  | errNotOpened
  | errUseOfClosedNetworkConnection
  | errBrokenPipe
  | errDialFailed
  deriving DecidableEq

/-- Outcome of running a Go function: a normal return value, or a runtime
panic (out-of-range slice expression, close of a closed channel, ...). -/
inductive GoResult (α : Type) where
  | panicked
  | ret (value : α)
  deriving DecidableEq

/-- Embeds `binary.LittleEndian.PutUint16(buf, v)` from the Go standard
library: stores the two little-endian bytes of the 16-bit value `v` into
the first two slots of `buf`; the Go implementation indexes `buf[1]` and
therefore panics when the buffer is shorter than two bytes. -/
def putUint16LE (buf : List Nat) (v : Nat) : GoResult (List Nat) :=
  if buf.length < 2 then .panicked
  else .ret (v % 256 :: v / 256 % 256 :: buf.drop 2)

/-- Embeds `UInt16ToByteArray` (src/unnamed/part_018 lines 8-12): allocate
`bufferSize` zero bytes and `PutUint16` the value into them.  The Go
argument is a `uint16`, modelled by reducing `value % 2 ^ 16`. -/
def UInt16ToByteArray (value : Nat) (bufferSize : Nat) : GoResult (List Nat) :=
  putUint16LE (List.replicate bufferSize 0) (value % 65536)

/-- Embeds `encoding/binary.Uvarint`'s loop from the Go standard library
(the header decoder called by the receive paths, src/buffstreams.go line
145 and src/bufftcplistener.go line 162).  State: remaining bytes, byte
index `i`, accumulator `x` (a `uint64`, kept below `2 ^ 64`), shift `s`.
Returns the decoded value and the number of bytes consumed; `0` consumed
means the buffer was too small, a negative count means overflow. -/
def uvarintAux : List Nat → Nat → Nat → Nat → Nat × Int
  | [], _, _, _ => (0, 0)
  | b :: rest, i, x, s =>
    if i = 10 then (0, -(Int.ofNat i + 1))
    else if b % 256 < 128 then
      if i = 9 ∧ 1 < b % 256 then (0, -(Int.ofNat i + 1))
      else (Nat.lor x (Nat.shiftLeft (b % 256) s % 2 ^ 64), Int.ofNat i + 1)
    else uvarintAux rest (i + 1) (Nat.lor x (Nat.shiftLeft (b % 256 % 128) s % 2 ^ 64)) (s + 7)

/-- Embeds `binary.Uvarint(buf)`: run the loop from the initial state. -/
def uvarint (buf : List Nat) : Nat × Int :=
  uvarintAux buf 0 0 0

/-- Modelled from the spec: `byteArrayToUInt32`, the decoder called by
`TCPConn.Read` (src/unnamed/part_017 line 203), is not among the provided
sources.  Spec section 4.1 defines `decodeLength` as the inverse pairing
with zero/negative `bytesConsumed` signalling failure — exactly the
contract of `binary.Uvarint`, which is what the in-repository receive
paths use verbatim (src/bufftcplistener.go line 162, src/buffstreams.go
line 145), so the missing function is modelled as `uvarint`. -/
def byteArrayToUInt32 (bytes : List Nat) : Nat × Int :=
  uvarint bytes

/-- Embeds the Go conversion `float64(n)` of a non-negative integer,
which follows IEEE 754 round-to-nearest, ties-to-even.  An integer whose
bit length is at most the 53 significand bits is converted exactly;
otherwise it is rounded to the nearest multiple of `2 ^ (bits - 53)`
(the spacing of representable doubles in its binade), a tie going to the
even multiple.  Rounding up may carry into the next binade
(`q + 1 = 2 ^ 53`), which is again exactly representable. -/
def roundFloat64 (n : Nat) : Nat :=
  let bits := Nat.log2 n + 1
  if bits ≤ 53 then n
  else
    let s := 2 ^ (bits - 53)
    let q := n / s
    let r := n % s
    (if 2 * r < s then q
     else if s < 2 * r then q + 1
     else if q % 2 = 0 then q else q + 1) * s

/-- Embeds `MessageSizeToBitLength` (src/unnamed/part_018 lines 16-20).
The Go code computes `math.Ceil(math.Floor(math.Log2(float64(n)) + 1) /
8.0)`.  The conversion to `float64` is modelled exactly by
`roundFloat64` — it changes the value whenever `n` needs more than 53
bits, e.g. `roundFloat64 (2 ^ 56 - 1) = 2 ^ 56`.  On the rounded value
`x` the remainder of the pipeline, `Floor(Log2(x) + 1)`, is modelled as
the exact `Nat.log2 x + 1`: this is the value Go computes whenever `x`
is a power of two (Go's `Log2` returns the exact exponent through its
`frac == 0.5` branch) and whenever `x < 2 ^ 47` (there the distance from
`log₂ x` to the nearest integer is at least about `2 ^ -41`, far larger
than the few-ulp error of `Log2`, so `Floor` cannot be pushed across an
integer).  Every theorem below evaluates this function only at such
inputs.  The final `Ceil(k / 8.0)` on the small integer `k` is exact and
becomes `(k + 7) / 8` over `Nat`. -/
def MessageSizeToBitLength (messageSize : Nat) : Nat :=
  (Nat.log2 (roundFloat64 messageSize) + 1 + 7) / 8

/-- Modelled from the spec: the lower-case `messageSizeToBitLength` called
by `newTCPConn`, `DialTCP` and `ListenTCP` (src/unnamed/part_017 line 56,
src/manager.go line 215, src/bufftcplistener.go line 53) is not among the
provided sources.  Spec section 3 defines the header width as
`ceil(bitsNeeded(maxMessageSize) / 8)` with `bitsNeeded(n) = floor(log2 n)
+ 1`, which over `Nat` is `(Nat.log2 n + 1 + 7) / 8`; the missing
function is modelled by those words.  (The repository's util_test.go pins
the missing in-repo variant to one more than this value on every tested
input; no claim settled here depends on which variant is used, and no
theorem below evaluates this function.) -/
def messageSizeToBitLength (messageSize : Nat) : Nat :=
  (Nat.log2 messageSize + 1 + 7) / 8

/-- Modelled from the spec: `intToByteArray`, the header encoder called by
`TCPConn.Write` (src/unnamed/part_017 line 125), is not among the provided
sources.  Spec section 4.1 defines `encodeLength(length, width)` as
writing the length as an unsigned little-endian integer into exactly
`width` bytes. -/
def intToByteArray (value : Nat) (bufferSize : Nat) : List Nat :=
  (List.range bufferSize).map (fun i => value / 256 ^ i % 256)

/-- The incoming side of one TCP socket: the bytes the peer has sent and
not yet delivered (`stream`), and a schedule of chunk sizes the OS
happens to hand over on successive `Read` system calls (`chunks`; an
exhausted schedule delivers everything pending).  This makes partial
reads explicit while keeping every run deterministic and executable. -/
structure NetState where
  stream : List Nat
  chunks : List Nat
  deriving DecidableEq

/-- One `socket.Read` call with capacity `cap` (the length of the slice
passed in): a zero-capacity read returns `(0, nil)` without blocking; an
exhausted stream yields `(0, io.EOF)`; otherwise the OS delivers between
1 and `cap` pending bytes, following the chunk schedule. -/
def socketRead (st : NetState) (cap : Nat) : (List Nat × Option GoError) × NetState :=
  if cap = 0 then (([], none), st)
  else if st.stream.isEmpty then (([], some .ioEOF), st)
  else
    let hint := match st.chunks with
      | [] => st.stream.length
      | c :: _ => max 1 c
    let k := min cap (min hint st.stream.length)
    ((st.stream.take k, none), ⟨st.stream.drop k, st.chunks.tail⟩)

/-- The retry loop of `TCPConn.lowLevelRead` (src/unnamed/part_017 lines
167-194): while fewer than `toRead` bytes are accumulated and no error
has occurred, issue another `socket.Read` for the remainder.  (The
source's unconditional first read is identical to the first loop
iteration whenever `toRead ≥ 1`, and for `toRead = 0` both return
`(0, nil)`.)  `fuel` bounds the iterations; `st.stream.length + 1`
always suffices because an iteration either errors or consumes at least
one byte of the stream. -/
def llReadLoop (fuel : Nat) (st : NetState) (acc : List Nat) (toRead : Nat)
    (err : Option GoError) : (List Nat × Nat × Option GoError) × NetState :=
  match fuel with
  | 0 => ((acc, acc.length, err), st)
  | fuel + 1 =>
    if acc.length < toRead ∧ err = none then
      let r := socketRead st (toRead - acc.length)
      llReadLoop fuel r.2 (acc ++ r.1.1) toRead r.1.2
    else ((acc, acc.length, err), st)

/-- Embeds `TCPConn.lowLevelRead` (src/unnamed/part_017 lines 167-194):
fill `buffer` by repeated socket reads until it is full or an error
occurs.  Returns the new buffer contents (the filled prefix, the rest
untouched), the total bytes read, the error, and the new socket state.
The source's post-loop branches return the same `(total, err)` pair in
every case, so they are not modelled separately. -/
def lowLevelRead (st : NetState) (buffer : List Nat) :
    (List Nat × Nat × Option GoError) × NetState :=
  let r := llReadLoop (st.stream.length + 1) st [] buffer.length none
  ((r.1.1 ++ buffer.drop r.1.1.length, r.1.2.1, r.1.2.2), r.2)

/-- The per-connection state of `TCPConn` (src/unnamed/part_017 lines
20-33).  `socketClosed` models whether `Close` has been invoked on the
underlying `net.TCPConn` (or no socket was ever opened). -/
structure TCPConn where
  address : String
  headerByteSize : Nat
  maxMessageSize : Nat
  incomingHeaderBuffer : List Nat
  outgoingDataBuffer : List Nat
  socketClosed : Bool
  deriving DecidableEq

/-- Embeds `TCPConn.Close` (src/unnamed/part_017 lines 114-116), which
returns `c.socket.Close()`.  `net.TCPConn.Close` never panics: a second
close fails with the benign "use of closed network connection" error, so
the model is a total function. -/
def TCPConn.close (c : TCPConn) : Option GoError × TCPConn :=
  if c.socketClosed then (some .errUseOfClosedNetworkConnection, c)
  else (none, { c with socketClosed := true })

/-- Embeds `TCPConn.Read` (src/unnamed/part_017 lines 196-220): read
exactly `headerByteSize` bytes into the header buffer, decode them with
`byteArrayToUInt32`, fail (closing the connection) on a zero or negative
parse count, and otherwise read `msgLength` bytes into `b[:msgLength]`.
The source performs no comparison of `msgLength` against
`maxMessageSize`; when `msgLength` exceeds `len(b)` the slice expression
`b[:msgLength]` is a Go runtime panic, returned here as
`GoResult.panicked`.  A successful return carries `(n, err)`, the new
contents of `b`, and the updated connection and socket states. -/
def TCPConn.read (c : TCPConn) (st : NetState) (b : List Nat) :
    GoResult ((Nat × Option GoError) × List Nat × TCPConn × NetState) :=
  let hr := lowLevelRead st c.incomingHeaderBuffer
  let c0 : TCPConn := { c with incomingHeaderBuffer := hr.1.1 }
  match hr.1.2.2 with
  | some e => .ret ((hr.1.2.1, some e), b, c0, hr.2)
  | none =>
    let d := byteArrayToUInt32 hr.1.1
    if d.2 = 0 then
      .ret ((hr.1.2.1, some .errZeroBytesReadHeader), b, (TCPConn.close c0).2, hr.2)
    else if d.2 < 0 then
      .ret ((hr.1.2.1, some .errLessThanZeroBytesReadHeader), b, (TCPConn.close c0).2, hr.2)
    else if b.length < d.1 then .panicked
    else
      let br := lowLevelRead hr.2 (b.take d.1)
      let c1 := if br.1.2.2 = none then c0 else (TCPConn.close c0).2
      .ret ((br.1.2.1, br.1.2.2), br.1.1 ++ b.drop d.1, c1, br.2)

/-- The configuration for an outbound connection, `TCPConnConfig`
(src/unnamed/part_017 lines 37-47; the delimiter fields are unused by the
embedded code paths). -/
structure TCPConnConfig where
  MaxMessageSize : Nat
  Address : String
  deriving DecidableEq

/-- Embeds `DefaultMaxMessageSize` (src/unnamed/part_000). -/
def DefaultMaxMessageSize : Nat := 4096

/-- Embeds `newTCPConn` (src/unnamed/part_017 lines 49-66): apply the
default for a zero `MaxMessageSize`, derive the header width, allocate
the two staging buffers.  No socket is opened (`socketClosed := true`);
the returned Go error is always nil, so it is omitted. -/
def newTCPConn (cfg : TCPConnConfig) : TCPConn :=
  let maxMessageSize := if cfg.MaxMessageSize ≠ 0 then cfg.MaxMessageSize
    else DefaultMaxMessageSize
  let headerByteSize := messageSizeToBitLength maxMessageSize
  { address := cfg.Address
    headerByteSize := headerByteSize
    maxMessageSize := maxMessageSize
    incomingHeaderBuffer := List.replicate headerByteSize 0
    outgoingDataBuffer := List.replicate maxMessageSize 0
    socketClosed := true }

/-- Embeds `TCPConn.open` (src/unnamed/part_017 lines 82-93): resolve and
dial the stored address; whether the dial succeeds is an external
outcome, passed as `dialOK`. -/
def TCPConn.openSock (c : TCPConn) (dialOK : Bool) : Option GoError × TCPConn :=
  if dialOK then (none, { c with socketClosed := false })
  else (some .errDialFailed, c)

/-- Embeds `DialTCP` (src/unnamed/part_017 lines 70-79): construct via
`newTCPConn`, then open. -/
def DialTCP (cfg : TCPConnConfig) (dialOK : Bool) : Except GoError TCPConn :=
  match (newTCPConn cfg).openSock dialOK with
  | (none, c2) => .ok c2
  | (some e, _) => .error e

/-- Embeds `TCPConn.Reopen` (src/unnamed/part_017 lines 97-107): `Close`,
returning its error if any (so a `Reopen` of an already-closed connection
fails with the already-closed error without re-dialing), then `open`. -/
def TCPConn.reopen (c : TCPConn) (dialOK : Bool) : Option GoError × TCPConn :=
  match TCPConn.close c with
  | (some e, c1) => (some e, c1)
  | (none, c1) => c1.openSock dialOK

/-- Per-call outcomes of `socket.Write` for one connection: each call
either accepts up to `k` of the offered bytes and returns no error, or
delivers nothing and returns a transport error.  An exhausted schedule
accepts everything offered. -/
inductive WStep where
  | accept (k : Nat)
  | fail
  deriving DecidableEq

/-- The atomic, externally observable actions a `Send` can perform:
operations on the per-connection write lock and socket writes of a byte
chunk. -/
inductive WAction where
  | lockAcquire
  | lockRelease
  | sockWrite (chunk : List Nat)
  deriving DecidableEq

/-- The retry loop of `TCPConn.Write` (src/unnamed/part_017 lines
148-158) over the pending frame bytes: while bytes remain and no error
has occurred, call `socket.Write` on the remainder
(`c.outgoingDataBuffer[totalBytesWritten:]`).  Returns the loop's
`(totalBytesWritten, writeError)` together with the sequence of socket
write actions performed (a failed call delivers nothing to the wire). -/
def writeLoopTr : List WStep → List Nat → (Nat × Option GoError) × List WAction
  | _, [] => ((0, none), [])
  | [], pending => ((pending.length, none), [WAction.sockWrite pending])
  | WStep.accept k :: rest, pending =>
    let k2 := min k pending.length
    let r := writeLoopTr rest (pending.drop k2)
    ((k2 + r.1.1, r.1.2), WAction.sockWrite (pending.take k2) :: r.2)
  | WStep.fail :: _, _ => ((0, some GoError.errBrokenPipe), [])

/-- Embeds `TCPConn.Write` (src/unnamed/part_017 lines 122-165): store
the frame — the `intToByteArray` header prepended to the data — in
`c.outgoingDataBuffer`, write it with the retry loop, and `Close` the
connection when the loop ends in an error (the `Close` result is
discarded).  A `Write` on an already-closed socket fails on its first
socket call.  The body of the source function contains no use of
`c.writeLock` — no `Lock` or `Unlock` call occurs anywhere in it — so
the action trace consists of socket writes only. -/
def TCPConn.write (c : TCPConn) (sched : List WStep) (data : List Nat) :
    ((Nat × Option GoError) × TCPConn) × List WAction :=
  let frame := intToByteArray data.length c.headerByteSize ++ data
  let c1 : TCPConn := { c with outgoingDataBuffer := frame }
  if c.socketClosed then
    (((0, some .errUseOfClosedNetworkConnection), (TCPConn.close c1).2), [])
  else
    let r := writeLoopTr sched frame
    if r.1.2 = none then ((r.1, c1), r.2)
    else ((r.1, (TCPConn.close c1).2), r.2)

/-- The state of `TCPListener` (src/unnamed/part_010 lines 18-25):
whether the listening socket has been closed, whether the shutdown
channel has been closed, and the `shutdownGroup` count of running
per-connection handlers. -/
structure TCPListener where
  socketClosed : Bool
  shutdownClosed : Bool
  handlers : Nat
  deriving DecidableEq

/-- Embeds `TCPListener.Close` (src/unnamed/part_010 lines 130-133):
`close(btl.shutdownChannel)` — closing an already-closed Go channel is a
runtime panic — followed by `btl.shutdownGroup.Wait()`, which blocks
until the handler count drains and changes no state.  The listening
socket `btl.socket` is not touched by `Close`. -/
def TCPListener.close (l : TCPListener) : GoResult TCPListener :=
  if l.shutdownClosed then .panicked
  else .ret { l with shutdownClosed := true }

/-- One iteration of `TCPListener.blockListen` (src/unnamed/part_010
lines 75-103), with the outcome of `AcceptTCP` as a parameter.  The
source binds the `AcceptTCP` error to `err` and on the very next line
rebinds `err` to `newTCPConn`'s error, which is always nil; both
subsequent error checks — the `return err` and the `select` on the
shutdown channel — therefore see nil and are dead code, and every
iteration reaches `go btl.readLoop(conn)` (whose first action is to
increment the `shutdownGroup` count; its loop forwards received payloads
to the callback).  Returns the listener state, whether a
callback-running handler was spawned, and whether the loop returned. -/
def TCPListener.acceptIteration (l : TCPListener) (acceptFailed : Bool) :
    TCPListener × Bool × Bool :=
  let errAccept : Option GoError := if acceptFailed then some .errBrokenPipe else none
  let err : Option GoError := none
  let _ := errAccept
  match err with
  | some _ => if l.shutdownClosed then (l, false, true) else (l, false, false)
  | none => ({ l with handlers := l.handlers + 1 }, true, false)

/-- The configuration of a listener, `TCPListenerConfig`
(src/unnamed/part_010 lines 29-42; the callback and logging flag do not
affect the embedded state transitions). -/
structure TCPListenerConfig where
  MaxMessageSize : Nat
  Address : String
  deriving DecidableEq

/-- Embeds `ListenTCP` (src/unnamed/part_010 lines 47-71): construct the
listener — open shutdown channel, empty wait group — and bind its
socket; bind success is an external outcome, passed as `bindOK`. -/
def ListenTCP (cfg : TCPListenerConfig) (bindOK : Bool) : Except GoError TCPListener :=
  let _ := cfg
  if bindOK then .ok { socketClosed := false, shutdownClosed := false, handlers := 0 }
  else .error .errDialFailed

/-- Association-list lookup, modelling a Go map read on the Manager's
address-keyed maps. -/
def lookupA {α : Type} : List (String × α) → String → Option α
  | [], _ => none
  | (k, v) :: rest, a => if k = a then some v else lookupA rest a

/-- Association-list update at an existing key, modelling the mutation of
the object a Go map entry points to. -/
def updateA {α : Type} : List (String × α) → String → α → List (String × α)
  | [], _, _ => []
  | (k, v) :: rest, a, w => if k = a then (k, w) :: rest else (k, v) :: updateA rest a w

/-- The state of `Manager` (src/manager.go lines 21-26): the two
address-keyed maps.  (The two locks guard them; in this sequential model
each operation is atomic.) -/
structure Manager where
  dialedConnections : List (String × TCPConn)
  listeningSockets : List (String × TCPListener)
  deriving DecidableEq

/-- Embeds `NewManager` (src/manager.go lines 29-37). -/
def NewManager : Manager :=
  { dialedConnections := [], listeningSockets := [] }

/-- Embeds `Manager.StartListening` (src/manager.go lines 44-66): a
duplicate address fails with `ErrAlreadyOpened`; otherwise `ListenTCP`,
store the listener, and `StartListeningAsync` (which launches the accept
loop in a goroutine and returns nil). -/
def Manager.startListening (m : Manager) (cfg : TCPListenerConfig) (bindOK : Bool) :
    Option GoError × Manager :=
  if (lookupA m.listeningSockets cfg.Address).isSome then (some .errAlreadyOpened, m)
  else
    match ListenTCP cfg bindOK with
    | .error e => (some e, m)
    | .ok btl =>
      (none, { m with listeningSockets := (cfg.Address, btl) :: m.listeningSockets })

/-- Embeds `Manager.CloseListener` (src/manager.go lines 70-79): when the
address is present, call the stored listener's `Close` and return nil —
the source contains no `delete`, so the entry stays in the map; when
absent, `ErrNotOpened`.  A panic inside `TCPListener.Close` (double
close) propagates. -/
def Manager.closeListener (m : Manager) (address : String) :
    GoResult (Option GoError × Manager) :=
  match lookupA m.listeningSockets address with
  | some btl =>
    match TCPListener.close btl with
    | .panicked => .panicked
    | .ret btl2 =>
      .ret (none, { m with listeningSockets := updateA m.listeningSockets address btl2 })
  | none => .ret (some .errNotOpened, m)

/-- Embeds `Manager.Dial` (src/manager.go lines 89-102): a duplicate
address fails with `ErrAlreadyOpened`; otherwise `DialTCP` and store. -/
def Manager.dial (m : Manager) (cfg : TCPConnConfig) (dialOK : Bool) :
    Option GoError × Manager :=
  if (lookupA m.dialedConnections cfg.Address).isSome then (some .errAlreadyOpened, m)
  else
    match DialTCP cfg dialOK with
    | .error e => (some e, m)
    | .ok btw =>
      (none, { m with dialedConnections := (cfg.Address, btw) :: m.dialedConnections })

/-- Embeds `Manager.CloseWriter` (src/manager.go lines 106-114): when the
address is present, return `btw.Close()` — the source contains no
`delete`, so the entry stays in the map; when absent, `ErrNotOpened`. -/
def Manager.closeWriter (m : Manager) (address : String) : Option GoError × Manager :=
  match lookupA m.dialedConnections address with
  | some btw =>
    let r := TCPConn.close btw
    (r.1, { m with dialedConnections := updateA m.dialedConnections address r.2 })
  | none => (some .errNotOpened, m)

/-- Embeds `Manager.Write` (src/manager.go lines 122-136): look up the
dialed connection (`ErrNotOpened` when absent), call its `Write`, and on
a write error call that connection's `Reopen` — discarding the reopen's
own result — while returning the write's original `(bytesWritten, err)`
pair to the caller. -/
def Manager.write (m : Manager) (address : String) (data : List Nat)
    (sched : List WStep) (dialOK : Bool) : (Nat × Option GoError) × Manager :=
  match lookupA m.dialedConnections address with
  | none => ((0, some .errNotOpened), m)
  | some btw =>
    let r := TCPConn.write btw sched data
    match r.1.1.2 with
    | none => (r.1.1, { m with dialedConnections := updateA m.dialedConnections address r.1.2 })
    | some _ =>
      let r2 := TCPConn.reopen r.1.2 dialOK
      (r.1.1, { m with dialedConnections := updateA m.dialedConnections address r2.2 })

/-- A Manager API call, with the outcomes of its external effects
(bind/dial success, socket write schedule) made explicit. -/
inductive MOp where
  | startListening (cfg : TCPListenerConfig) (bindOK : Bool)
  | closeListener (address : String)
  | dial (cfg : TCPConnConfig) (dialOK : Bool)
  | closeWriter (address : String)
  | write (address : String) (data : List Nat) (sched : List WStep) (dialOK : Bool)

/-- The Manager state after one API call (a panicking `closeListener`
leaves the maps untouched: the panic happens inside the listener's
`Close`, which mutates no map). -/
def Manager.applyOp (m : Manager) : MOp → Manager
  | .startListening cfg bindOK => (m.startListening cfg bindOK).2
  | .closeListener a =>
    match m.closeListener a with
    | .panicked => m
    | .ret r => r.2
  | .dial cfg dialOK => (m.dial cfg dialOK).2
  | .closeWriter a => (m.closeWriter a).2
  | .write a data sched dialOK => (Manager.write m a data sched dialOK).2

/-- Key uniqueness of the Manager's maps: a Go map cannot hold two
entries for one key, so the modelling association lists must keep their
keys nodup under every operation. -/
def Manager.wf (m : Manager) : Prop :=
  (m.dialedConnections.map Prod.fst).Nodup ∧ (m.listeningSockets.map Prod.fst).Nodup

/-- The actions of one thread in a tagged two-thread execution order
(`true` selects the first thread). -/
def threadActions (t : Bool) (s : List (Bool × WAction)) : List WAction :=
  s.filterMap (fun p => if p.1 = t then some p.2 else none)

/-- Whether a tagged execution order respects the mutual exclusion of the
per-connection write lock: a thread may acquire only a free lock and
release only one it holds.  Socket writes are never blocked by the lock,
so an order whose threads never touch the lock is always feasible. -/
def lockFeasible : Option Bool → List (Bool × WAction) → Bool
  | _, [] => true
  | owner, (t, WAction.lockAcquire) :: rest =>
    decide (owner = none) && lockFeasible (some t) rest
  | owner, (t, WAction.lockRelease) :: rest =>
    decide (owner = some t) && lockFeasible none rest
  | owner, (_, WAction.sockWrite _) :: rest => lockFeasible owner rest

/-- The thread tags of the nonempty socket writes of a tagged execution
order, in order of occurrence on the socket. -/
def writeTags (s : List (Bool × WAction)) : List Bool :=
  s.filterMap (fun p =>
    match p with
    | (t, WAction.sockWrite (_ :: _)) => some t
    | _ => none)

/-- A two-thread socket write order keeps each thread's frame contiguous
(never interleaved) exactly when its tag sequence is one thread's block
followed by the other thread's block. -/
def framesContiguous (tags : List Bool) : Bool :=
  decide (tags = tags.filter (fun t => t) ++ tags.filter (fun t => !t)) ||
  decide (tags = tags.filter (fun t => !t) ++ tags.filter (fun t => t))
/-- Helper for concrete `Nat.log2` values: `Nat.log2` agrees with
`Nat.log 2`, for which Mathlib characterises values by powers of two. -/
theorem log2_eq_of_pow (n k : Nat) (h1 : 2 ^ k ≤ n) (h2 : n < 2 ^ (k + 1)) :
    Nat.log2 n = k := by
  rw [Nat.log2_eq_log_two]
  exact Nat.log_eq_of_pow_le_of_lt_pow h1 h2

theorem roundFloat64_of_le (n : Nat) (h : Nat.log2 n + 1 ≤ 53) : roundFloat64 n = n := by
  unfold roundFloat64
  dsimp only
  rw [if_pos h]

theorem messageSizeToBitLength_eq (n x k : Nat) (hx : roundFloat64 n = x)
    (hk : Nat.log2 x = k) : MessageSizeToBitLength n = (k + 1 + 7) / 8 := by
  unfold MessageSizeToBitLength
  rw [hx, hk]

theorem messageSizeToBitLength_eval (n k : Nat) (hk : Nat.log2 n = k) (h53 : k + 1 ≤ 53) :
    MessageSizeToBitLength n = (k + 1 + 7) / 8 :=
  messageSizeToBitLength_eq n n k (roundFloat64_of_le n (by rw [hk]; omega)) hk

theorem floor_logb_eq_natLog (n : Nat) : ⌊Real.logb 2 (n : ℝ)⌋ = (Nat.log 2 n : ℤ) := by
  have h2 : (2 : ℝ) = ((2 : ℕ) : ℝ) := by norm_num
  rw [h2, Real.floor_logb_natCast (Nat.cast_nonneg n), Int.log_natCast]

theorem ceil_div_eight_int (m : ℤ) : (⌈((m : ℚ)) / 8⌉ : ℤ) = -((-m) / 8) := by
  have hfl : ⌊((-m : ℤ) : ℚ) / ((8 : ℕ) : ℚ)⌋ = (-m) / ((8 : ℕ) : ℤ) :=
    Rat.floor_intCast_div_natCast (-m) 8
  have hrw : -((m : ℚ) / 8) = ((-m : ℤ) : ℚ) / ((8 : ℕ) : ℚ) := by push_cast; ring
  have hneg : ⌈((m : ℚ)) / 8⌉ = -⌊-((m : ℚ) / 8)⌋ := by
    rw [Int.floor_neg]
    ring
  rw [hneg, hrw, hfl]
  norm_num

/-- Claim C2 as stated is false at a concrete input: at
`maxMessageSize n = 2 ^ 56 - 1` the conversion `float64(n)` rounds `n`
up to `2 ^ 56` (its 56-bit value lies within half a spacing of that
power of two), Go's `Log2` then takes its exact power-of-two branch and
returns `56.0`, and the code computes `Ceil(57 / 8) = 8` — whereas the
claimed formula `ceil((floor(log2 n) + 1) / 8) = ceil(56 / 8)` gives 7.
The derived header width therefore does not satisfy the formula for
every `n ≥ 1`. -/
theorem messageSizeToBitLength_float64_mismatch :
    roundFloat64 (2 ^ 56 - 1) = 2 ^ 56 ∧
    MessageSizeToBitLength (2 ^ 56 - 1) = 8 ∧
    (⌈((⌊Real.logb 2 ((2 ^ 56 - 1 : Nat) : ℝ)⌋ + 1 : ℤ) : ℚ) / 8⌉ : ℤ) = 7 ∧
    (MessageSizeToBitLength (2 ^ 56 - 1) : ℤ) ≠
      ⌈((⌊Real.logb 2 ((2 ^ 56 - 1 : Nat) : ℝ)⌋ + 1 : ℤ) : ℚ) / 8⌉ := by
  have l56m1 : Nat.log2 (2 ^ 56 - 1) = 55 :=
    log2_eq_of_pow (2 ^ 56 - 1) 55 (by norm_num) (by norm_num)
  have l56 : Nat.log2 (2 ^ 56) = 56 :=
    log2_eq_of_pow (2 ^ 56) 56 (by norm_num) (by norm_num)
  have hround : roundFloat64 (2 ^ 56 - 1) = 2 ^ 56 := by
    unfold roundFloat64
    dsimp only
    rw [l56m1]
    norm_num
  have hmsg : MessageSizeToBitLength (2 ^ 56 - 1) = 8 := by
    rw [messageSizeToBitLength_eq (2 ^ 56 - 1) (2 ^ 56) 56 hround l56]
  have hspec : (⌈((⌊Real.logb 2 ((2 ^ 56 - 1 : Nat) : ℝ)⌋ + 1 : ℤ) : ℚ) / 8⌉ : ℤ) = 7 := by
    rw [floor_logb_eq_natLog, ← Nat.log2_eq_log_two, l56m1, ceil_div_eight_int]
    omega
  refine ⟨hround, hmsg, hspec, ?_⟩
  rw [hmsg, hspec]
  omega

/-- Claim C2, amended to the float64-exact range: the derived header
width satisfies `headerWidth(n) = ceil((floor(log2 n) + 1) / 8)` for
every `maxMessageSize n` with `1 ≤ n < 2 ^ 47` — the range in which the
float64 pipeline is exact (the int-to-float64 conversion is exact below
`2 ^ 53`, and below `2 ^ 47` the rounding error of `Log2` cannot push
`Floor` across an integer) — and in particular `headerWidth(255) = 1`,
`headerWidth(256) = 2`, `headerWidth(65535) = 2`, `headerWidth(65536) =
3`.  Beyond `2 ^ 53` the conversion itself can change the result: see
the counterexample at `n = 2 ^ 56 - 1`, where the code yields 8 and the
formula 7. -/
theorem messageSizeToBitLength_matches_spec (n : Nat) (h1 : 1 ≤ n) (h2 : n < 2 ^ 47) :
    (MessageSizeToBitLength n : ℤ) = ⌈((⌊Real.logb 2 (n : ℝ)⌋ + 1 : ℤ) : ℚ) / 8⌉ ∧
    MessageSizeToBitLength 255 = 1 ∧ MessageSizeToBitLength 256 = 2 ∧
    MessageSizeToBitLength 65535 = 2 ∧ MessageSizeToBitLength 65536 = 3 := by
  have l255 : Nat.log2 255 = 7 := log2_eq_of_pow 255 7 (by norm_num) (by norm_num)
  have l256 : Nat.log2 256 = 8 := log2_eq_of_pow 256 8 (by norm_num) (by norm_num)
  have l65535 : Nat.log2 65535 = 15 := log2_eq_of_pow 65535 15 (by norm_num) (by norm_num)
  have l65536 : Nat.log2 65536 = 16 := log2_eq_of_pow 65536 16 (by norm_num) (by norm_num)
  refine ⟨?_, by rw [messageSizeToBitLength_eval 255 7 l255 (by omega)],
    by rw [messageSizeToBitLength_eval 256 8 l256 (by omega)],
    by rw [messageSizeToBitLength_eval 65535 15 l65535 (by omega)],
    by rw [messageSizeToBitLength_eval 65536 16 l65536 (by omega)]⟩
  have hlt : Nat.log2 n < 47 := (Nat.log2_lt (by omega)).mpr h2
  have hr : roundFloat64 n = n := roundFloat64_of_le n (by omega)
  rw [floor_logb_eq_natLog, ← Nat.log2_eq_log_two, ceil_div_eight_int]
  unfold MessageSizeToBitLength
  rw [hr]
  omega

/-- Witness for the amended C2, at `n = 256`. -/
theorem messageSizeToBitLength_matches_spec_witness :
    (MessageSizeToBitLength 256 : ℤ) = ⌈((⌊Real.logb 2 ((256 : ℕ) : ℝ)⌋ + 1 : ℤ) : ℚ) / 8⌉ ∧
    MessageSizeToBitLength 255 = 1 ∧ MessageSizeToBitLength 256 = 2 ∧
    MessageSizeToBitLength 65535 = 2 ∧ MessageSizeToBitLength 65536 = 3 :=
  messageSizeToBitLength_matches_spec 256 (by norm_num) (by norm_num)

/-- Claim C1 fails on the code (a code bug): the send path encodes the
payload length as a fixed-width little-endian integer
(`UInt16ToByteArray`, src/unnamed/part_018) while the receive path decodes
the header with `binary.Uvarint` (src/buffstreams.go line 145,
src/bufftcplistener.go line 162), and these are not inverse.  Concretely,
with `maxMessageSize = 256` the derived header width is 2; a payload of
length 200 (which is `≤ 256`) is encoded as the header `[200, 0]`, which
`Uvarint` — seeing the set continuation bit of the byte `200` — decodes as
72, not 200.  (For `len(p) ≥ 128` the round-trip always misdecodes; for
`maxMessageSize = 1` the derived width 1 even makes `PutUint16` panic.)
At the inputs 256 and 1 the float64 pipeline of the width derivation is
exact, so the widths used here are the program's. -/
theorem header_encode_decode_mismatch :
    MessageSizeToBitLength 256 = 2 ∧
    UInt16ToByteArray 200 2 = .ret [200, 0] ∧
    uvarint [200, 0] = (72, 2) ∧
    UInt16ToByteArray 1 (MessageSizeToBitLength 1) = .panicked := by
  have l256 : Nat.log2 256 = 8 := log2_eq_of_pow 256 8 (by norm_num) (by norm_num)
  have l1 : Nat.log2 1 = 0 := log2_eq_of_pow 1 0 (by norm_num) (by norm_num)
  refine ⟨by rw [messageSizeToBitLength_eval 256 8 l256 (by omega)], by decide, by decide, ?_⟩
  rw [messageSizeToBitLength_eval 1 0 l1 (by omega)]
  decide

theorem socketRead_len (st : NetState) (cap : Nat) :
    (socketRead st cap).1.1.length ≤ cap := by
  unfold socketRead
  split
  · simp
  split
  · simp
  dsimp only
  simp only [List.length_take]
  omega

theorem socketRead_err (st : NetState) (cap : Nat) :
    (socketRead st cap).1.2 = none ∨ (socketRead st cap).1.2 = some .ioEOF := by
  unfold socketRead
  split
  · simp
  split
  · simp
  dsimp only
  simp

theorem socketRead_progress (st : NetState) (cap : Nat) (hcap : 1 ≤ cap)
    (hne : st.stream.isEmpty = false) :
    (socketRead st cap).1.2 = none ∧ 1 ≤ (socketRead st cap).1.1.length ∧
    (socketRead st cap).2.stream.length + (socketRead st cap).1.1.length = st.stream.length := by
  unfold socketRead
  rw [if_neg (by omega), if_neg (by simp [hne])]
  dsimp only
  have hlen : 1 ≤ st.stream.length := by
    cases h : st.stream with
    | nil => rw [h] at hne; simp at hne
    | cons a l => simp [h]
  refine ⟨rfl, ?_, ?_⟩
  · simp only [List.length_take]
    have hhint : 1 ≤ (match st.chunks with
        | [] => st.stream.length
        | c :: _ => max 1 c) := by
      cases st.chunks <;> simp <;> omega
    omega
  · simp only [List.length_take, List.length_drop]
    omega

theorem llReadLoop_stop (fuel : Nat) (st : NetState) (acc : List Nat) (toRead : Nat)
    (err : Option GoError) (h : err ≠ none ∨ toRead ≤ acc.length) :
    llReadLoop fuel st acc toRead err = ((acc, acc.length, err), st) := by
  cases fuel with
  | zero => rfl
  | succ fuel =>
    unfold llReadLoop
    rw [if_neg]
    rintro ⟨h1, h2⟩
    rcases h with h | h
    · exact h h2
    · omega

theorem llReadLoop_total (fuel : Nat) (st : NetState) (acc : List Nat) (toRead : Nat)
    (err : Option GoError) :
    (llReadLoop fuel st acc toRead err).1.2.1 =
      (llReadLoop fuel st acc toRead err).1.1.length := by
  induction fuel generalizing st acc err with
  | zero => rfl
  | succ fuel ih =>
    unfold llReadLoop
    split
    · exact ih _ _ _
    · rfl

theorem llReadLoop_len (fuel : Nat) (st : NetState) (acc : List Nat) (toRead : Nat)
    (err : Option GoError) (h : acc.length ≤ toRead) :
    (llReadLoop fuel st acc toRead err).1.1.length ≤ toRead := by
  induction fuel generalizing st acc err with
  | zero => exact h
  | succ fuel ih =>
    unfold llReadLoop
    split
    · rename_i hc
      refine ih _ _ _ ?_
      have := socketRead_len st (toRead - acc.length)
      simp only [List.length_append]
      omega
    · exact h

theorem llReadLoop_err (fuel : Nat) (st : NetState) (acc : List Nat) (toRead : Nat) :
    (llReadLoop fuel st acc toRead none).1.2.2 = none ∨
    (llReadLoop fuel st acc toRead none).1.2.2 = some .ioEOF := by
  induction fuel generalizing st acc with
  | zero => simp [llReadLoop]
  | succ fuel ih =>
    unfold llReadLoop
    split
    · dsimp only
      rcases socketRead_err st (toRead - acc.length) with he | he
      · rw [he]
        exact ih _ _
      · rw [he, llReadLoop_stop _ _ _ _ _ (Or.inl (by simp))]
        simp
    · simp

theorem llReadLoop_full (fuel : Nat) (st : NetState) (acc : List Nat) (toRead : Nat)
    (hfuel : st.stream.length + 1 ≤ fuel) (hacc : acc.length ≤ toRead)
    (hsucc : (llReadLoop fuel st acc toRead none).1.2.2 = none) :
    (llReadLoop fuel st acc toRead none).1.1.length = toRead := by
  induction fuel generalizing st acc with
  | zero => omega
  | succ fuel ih =>
    rw [llReadLoop] at hsucc ⊢
    by_cases hc : acc.length < toRead ∧ (none : Option GoError) = none
    · rw [if_pos hc] at hsucc ⊢
      dsimp only at hsucc ⊢
      by_cases hne : st.stream.isEmpty = false
      · obtain ⟨he, hk, hdrop⟩ := socketRead_progress st (toRead - acc.length) (by omega) hne
        rw [he] at hsucc ⊢
        have hlen := socketRead_len st (toRead - acc.length)
        refine ih _ _ ?_ ?_ hsucc
        · omega
        · simp only [List.length_append]
          omega
      · have hemp : st.stream.isEmpty = true := by
          cases h : st.stream.isEmpty
          · exact absurd h hne
          · rfl
        have he : (socketRead st (toRead - acc.length)).1.2 = some .ioEOF := by
          unfold socketRead
          rw [if_neg (by omega), if_pos hemp]
        rw [he, llReadLoop_stop _ _ _ _ _ (Or.inl (by simp))] at hsucc
        simp at hsucc
    · rw [if_neg hc] at hsucc ⊢
      have h2 : ¬ acc.length < toRead := fun hlt => hc ⟨hlt, rfl⟩
      dsimp only
      omega

theorem lowLevelRead_len (st : NetState) (buffer : List Nat) :
    (lowLevelRead st buffer).1.1.length = buffer.length := by
  unfold lowLevelRead
  dsimp only
  have h1 := llReadLoop_len (st.stream.length + 1) st [] buffer.length none (by simp)
  simp only [List.length_append, List.length_drop]
  omega

theorem lowLevelRead_err (st : NetState) (buffer : List Nat) :
    (lowLevelRead st buffer).1.2.2 = none ∨ (lowLevelRead st buffer).1.2.2 = some .ioEOF := by
  unfold lowLevelRead
  dsimp only
  exact llReadLoop_err _ _ _ _

theorem lowLevelRead_success (st : NetState) (buffer : List Nat)
    (h : (lowLevelRead st buffer).1.2.2 = none) :
    (lowLevelRead st buffer).1.2.1 = buffer.length ∧
    (lowLevelRead st buffer).1.1 =
      (llReadLoop (st.stream.length + 1) st [] buffer.length none).1.1 := by
  have herr : (llReadLoop (st.stream.length + 1) st [] buffer.length none).1.2.2 = none := by
    unfold lowLevelRead at h
    exact h
  have hfull := llReadLoop_full (st.stream.length + 1) st [] buffer.length
    (by omega) (by simp) herr
  have htot := llReadLoop_total (st.stream.length + 1) st [] buffer.length none
  unfold lowLevelRead
  dsimp only
  constructor
  · omega
  · rw [hfull, List.drop_length, List.append_nil]

/-- Claim C3 as stated is false at a concrete input: with
`maxMessageSize = 4` and a receive buffer of that size, a header that
decodes to length 5 (greater than `maxMessageSize`) does not make
`TCPConn.Read` fail with a protocol-violation error and close the
connection — `Read` performs no such check, and the slice expression
`b[:msgLength]` panics instead. -/
theorem read_oversized_length_panics :
    byteArrayToUInt32 ((lowLevelRead ⟨[5, 1, 2, 3, 4, 5], []⟩ [0]).1.1) = (5, 1) ∧
    TCPConn.read ⟨"a", 1, 4, [0], [], false⟩ ⟨[5, 1, 2, 3, 4, 5], []⟩ [0, 0, 0, 0] =
      .panicked := by
  decide

/-- Claim C3, amended to what the code does: `TCPConn.Read` never
compares the decoded header length against `maxMessageSize`.  When the
header read succeeds and decodes to a length `L` exceeding
`maxMessageSize`, then: if `L` also exceeds `len(b)` the call panics on
the slice expression `b[:msgLength]` (it neither returns a
protocol-violation error nor closes the connection); if `L ≤ len(b)` the
call goes on to read the oversized payload normally, returning at most
an end-of-stream transport error, never a protocol error. -/
theorem read_has_no_max_size_check (c : TCPConn) (st : NetState) (b : List Nat)
    (L : Nat) (p : Int)
    (hok : (lowLevelRead st c.incomingHeaderBuffer).1.2.2 = none)
    (hdec : byteArrayToUInt32 (lowLevelRead st c.incomingHeaderBuffer).1.1 = (L, p))
    (hp : 0 < p) (hover : c.maxMessageSize < L) :
    (b.length < L → TCPConn.read c st b = .panicked) ∧
    (L ≤ b.length → ∃ n e buf c2 st2,
      TCPConn.read c st b = .ret ((n, e), buf, c2, st2) ∧
      (e = none ∨ e = some .ioEOF)) := by
  unfold TCPConn.read
  dsimp only
  rw [hok, hdec]
  dsimp only
  rw [if_neg (by omega : ¬ p = 0), if_neg (by omega : ¬ p < 0)]
  constructor
  · intro h
    rw [if_pos h]
  · intro h
    rw [if_neg (by omega : ¬ b.length < L)]
    refine ⟨_, _, _, _, _, rfl, ?_⟩
    exact lowLevelRead_err _ _

/-- Witness for the amended C3, at the concrete input of the
counterexample (decoded length 5, `maxMessageSize = 4`, buffer length
4). -/
theorem read_has_no_max_size_check_witness :
    ((4 : Nat) < 5 → TCPConn.read ⟨"a", 1, 4, [0], [], false⟩ ⟨[5, 1, 2, 3, 4, 5], []⟩
        [0, 0, 0, 0] = .panicked) ∧
    ((5 : Nat) ≤ 4 → ∃ n e buf c2 st2,
      TCPConn.read ⟨"a", 1, 4, [0], [], false⟩ ⟨[5, 1, 2, 3, 4, 5], []⟩ [0, 0, 0, 0] =
        .ret ((n, e), buf, c2, st2) ∧ (e = none ∨ e = some .ioEOF)) :=
  read_has_no_max_size_check ⟨"a", 1, 4, [0], [], false⟩ ⟨[5, 1, 2, 3, 4, 5], []⟩
    [0, 0, 0, 0] 5 1 (by decide) (by decide) (by decide) (by decide)

theorem drop_append_of_length_eq {α : Type} (x y : List α) (L : Nat) (h : x.length = L) :
    (x ++ y).drop L = y := by
  subst h
  exact List.drop_left x y

/-- Claim C10: frame condition of `TCPConn.Read` on the caller's buffer —
for every successful call (`err = nil`) whose header decodes to a length
`L ≤ len(b)`, the returned count equals `L`, the buffer keeps its length,
and every byte of `b` at index `≥ L` is unchanged. -/
theorem read_frame_condition (c : TCPConn) (st : NetState) (b : List Nat)
    (L : Nat) (p : Int) (n : Nat) (buf : List Nat) (c2 : TCPConn) (st2 : NetState)
    (hdec : byteArrayToUInt32 (lowLevelRead st c.incomingHeaderBuffer).1.1 = (L, p))
    (hLb : L ≤ b.length)
    (hrun : TCPConn.read c st b = .ret ((n, none), buf, c2, st2)) :
    n = L ∧ buf.length = b.length ∧ buf.drop L = b.drop L := by
  unfold TCPConn.read at hrun
  dsimp only at hrun
  cases h1 : (lowLevelRead st c.incomingHeaderBuffer).1.2.2 with
  | some e =>
    rw [h1] at hrun
    simp at hrun
  | none =>
    rw [h1, hdec] at hrun
    dsimp only at hrun
    by_cases hp0 : p = 0
    · rw [if_pos hp0] at hrun
      simp at hrun
    · rw [if_neg hp0] at hrun
      by_cases hpneg : p < 0
      · rw [if_pos hpneg] at hrun
        simp at hrun
      · rw [if_neg hpneg, if_neg (by omega : ¬ b.length < L)] at hrun
        simp only [GoResult.ret.injEq, Prod.mk.injEq] at hrun
        obtain ⟨⟨hn, herr⟩, hbuf, -, -⟩ := hrun
        have htake : (b.take L).length = L := by
          simp [List.length_take]
          omega
        have hsucc := lowLevelRead_success
          (lowLevelRead st c.incomingHeaderBuffer).2 (b.take L) herr
        have hlen := lowLevelRead_len (lowLevelRead st c.incomingHeaderBuffer).2 (b.take L)
        refine ⟨?_, ?_, ?_⟩
        · rw [← hn, hsucc.1, htake]
        · rw [← hbuf]
          simp only [List.length_append, List.length_drop]
          omega
        · rw [← hbuf]
          exact drop_append_of_length_eq _ _ _ (by rw [hlen, htake])

/-- Witness for C10: a successful 2-byte read into a 4-byte buffer
leaves the final two bytes (7 and 9) untouched and returns count 2. -/
theorem read_frame_condition_witness :
    (2 : Nat) = 2 ∧ ([20, 30, 7, 9] : List Nat).length = ([1, 2, 7, 9] : List Nat).length ∧
    ([20, 30, 7, 9] : List Nat).drop 2 = ([1, 2, 7, 9] : List Nat).drop 2 :=
  read_frame_condition ⟨"a", 1, 4, [0], [], false⟩ ⟨[2, 20, 30], []⟩ [1, 2, 7, 9]
    2 1 2 [20, 30, 7, 9] ⟨"a", 1, 4, [2], [], false⟩ ⟨[], []⟩
    (by decide) (by decide) (by decide)

/-- Claim C8 as stated is false at a concrete input: calling `Close`
twice on the same fresh `TCPListener` panics on the second call —
`TCPListener.Close` unconditionally runs `close(btl.shutdownChannel)`,
and closing an already-closed Go channel is a runtime panic, not a
benign result. -/
theorem listener_double_close_panics :
    ∃ l2, TCPListener.close ⟨false, false, 0⟩ = .ret l2 ∧
      TCPListener.close l2 = .panicked :=
  ⟨⟨false, true, 0⟩, rfl, rfl⟩

/-- Claim C8, amended: double `Close` is panic-free for `TCPConn` — the
second call returns the benign already-closed error — but for
`TCPListener` the second `Close` panics (double close of the shutdown
channel): the listener's `Close` is safe to call exactly once. -/
theorem double_close_semantics (c : TCPConn) (l : TCPListener)
    (hc : c.socketClosed = false) (hl : l.shutdownClosed = false) :
    (TCPConn.close c).1 = none ∧
    TCPConn.close (TCPConn.close c).2 =
      (some .errUseOfClosedNetworkConnection, (TCPConn.close c).2) ∧
    (∃ l2, TCPListener.close l = .ret l2 ∧ TCPListener.close l2 = .panicked) := by
  refine ⟨?_, ?_, ⟨{ l with shutdownClosed := true }, ?_, ?_⟩⟩
  · simp [TCPConn.close, hc]
  · simp [TCPConn.close, hc]
  · simp [TCPListener.close, hl]
  · simp [TCPListener.close]

/-- Witness for the amended C8, on a freshly opened connection and a
fresh listener. -/
theorem double_close_semantics_witness :
    (TCPConn.close ⟨"a", 1, 4, [0], [], false⟩).1 = none ∧
    TCPConn.close (TCPConn.close ⟨"a", 1, 4, [0], [], false⟩).2 =
      (some .errUseOfClosedNetworkConnection,
        (TCPConn.close ⟨"a", 1, 4, [0], [], false⟩).2) ∧
    (∃ l2, TCPListener.close ⟨false, false, 0⟩ = .ret l2 ∧
      TCPListener.close l2 = .panicked) :=
  double_close_semantics ⟨"a", 1, 4, [0], [], false⟩ ⟨false, false, 0⟩ rfl rfl

/-- Claim C4 fails on the code (a code bug): `TCPListener.Close`
(src/unnamed/part_010 lines 130-133) only closes the shutdown channel and
waits on the handler group — it never closes the listening socket, so a
blocked `AcceptTCP` is not interrupted; moreover `blockListen`
(lines 75-103) overwrites the `AcceptTCP` error with `newTCPConn`'s nil
error, making the shutdown check unreachable, so after `Close` has
returned, every accept-loop iteration — for any accept outcome — still
spawns a `readLoop` handler that forwards payloads to the callback, and
the loop never exits. -/
theorem close_does_not_stop_accept_loop (l : TCPListener)
    (h : l.shutdownClosed = false) :
    ∃ l2, TCPListener.close l = .ret l2 ∧
      l2.socketClosed = l.socketClosed ∧
      ∀ a, TCPListener.acceptIteration l2 a =
        ({ l2 with handlers := l2.handlers + 1 }, true, false) := by
  refine ⟨{ l with shutdownClosed := true }, by simp [TCPListener.close, h], rfl, ?_⟩
  intro a
  rfl

/-- Witness for C4's theorem, on a fresh running listener. -/
theorem close_does_not_stop_accept_loop_witness :
    ∃ l2, TCPListener.close ⟨false, false, 0⟩ = .ret l2 ∧
      l2.socketClosed = false ∧
      ∀ a, TCPListener.acceptIteration l2 a =
        ({ l2 with handlers := l2.handlers + 1 }, true, false) :=
  close_does_not_stop_accept_loop ⟨false, false, 0⟩ rfl

theorem lookupA_updateA_self {α : Type} (l : List (String × α)) (a : String) (v : α)
    (h : (lookupA l a).isSome) : lookupA (updateA l a v) a = some v := by
  induction l with
  | nil => simp [lookupA] at h
  | cons kv rest ih =>
    obtain ⟨k, w⟩ := kv
    by_cases hk : k = a
    · subst hk
      simp [lookupA, updateA]
    · simp only [lookupA, updateA, if_neg hk] at h ⊢
      exact ih h

theorem not_mem_keys_of_lookupA_none {α : Type} (l : List (String × α)) (a : String)
    (h : lookupA l a = none) : a ∉ l.map Prod.fst := by
  induction l with
  | nil => simp
  | cons kv rest ih =>
    obtain ⟨k, w⟩ := kv
    simp only [lookupA] at h
    by_cases hk : k = a
    · rw [if_pos hk] at h
      exact absurd h (by simp)
    · rw [if_neg hk] at h
      simp only [List.map_cons, List.mem_cons, not_or]
      exact ⟨fun he => hk he.symm, ih h⟩

theorem updateA_keys {α : Type} (l : List (String × α)) (a : String) (v : α) :
    (updateA l a v).map Prod.fst = l.map Prod.fst := by
  induction l with
  | nil => rfl
  | cons kv rest ih =>
    obtain ⟨k, w⟩ := kv
    by_cases hk : k = a
    · simp [updateA, hk]
    · simp [updateA, hk, ih]

theorem TCPConn.close_closed (c : TCPConn) : (TCPConn.close c).2.socketClosed = true := by
  unfold TCPConn.close
  split
  · rename_i h
    simpa using h
  · rfl

/-- Claim C5 as stated is false at a concrete input: `CloseListener`
succeeds on a manager holding one open listener at address "a", but does
not remove the map entry, so the very next `StartListening` for "a"
fails with `ErrAlreadyOpened` instead of succeeding; symmetrically,
`CloseWriter` leaves its entry behind and the next `Dial` of "a" fails
with `ErrAlreadyOpened`. -/
theorem closeListener_leaves_entry :
    ∃ m2, Manager.closeListener ⟨[], [("a", ⟨false, false, 0⟩)]⟩ "a" = .ret (none, m2) ∧
      (Manager.startListening m2 ⟨4096, "a"⟩ true).1 = some GoError.errAlreadyOpened ∧
      (Manager.closeWriter ⟨[("a", ⟨"a", 1, 4, [0], [], false⟩)], []⟩ "a").1 = none ∧
      (Manager.dial (Manager.closeWriter ⟨[("a", ⟨"a", 1, 4, [0], [], false⟩)], []⟩ "a").2
        ⟨4, "a"⟩ true).1 = some GoError.errAlreadyOpened :=
  ⟨⟨[], [("a", ⟨false, true, 0⟩)]⟩, by decide, by decide, by decide, by decide⟩

/-- Claim C5, amended: for every present address, `CloseWriter`
(resp. `CloseListener`) closes the endpoint and returns the close's
result, but the entry is not removed from the map — so a later `Dial`
(resp. `StartListening`) for the same address fails with
`ErrAlreadyOpened` rather than succeeding; for every absent address both
return the not-opened error. -/
theorem close_ops_leave_entries (m : Manager) (a : String) (btw : TCPConn)
    (btl : TCPListener) (sz : Nat) (dOK bOK : Bool)
    (hw : lookupA m.dialedConnections a = some btw)
    (hl : lookupA m.listeningSockets a = some btl)
    (hlc : btl.shutdownClosed = false) :
    (∃ m2, Manager.closeWriter m a = ((TCPConn.close btw).1, m2) ∧
      lookupA m2.dialedConnections a = some (TCPConn.close btw).2 ∧
      (TCPConn.close btw).2.socketClosed = true ∧
      (Manager.dial m2 ⟨sz, a⟩ dOK).1 = some GoError.errAlreadyOpened) ∧
    (∃ m3, Manager.closeListener m a = .ret (none, m3) ∧
      lookupA m3.listeningSockets a = some { btl with shutdownClosed := true } ∧
      (Manager.startListening m3 ⟨sz, a⟩ bOK).1 = some GoError.errAlreadyOpened) ∧
    (∀ a2, lookupA m.dialedConnections a2 = none →
      Manager.closeWriter m a2 = (some GoError.errNotOpened, m)) ∧
    (∀ a2, lookupA m.listeningSockets a2 = none →
      Manager.closeListener m a2 = .ret (some GoError.errNotOpened, m)) := by
  have hupd : lookupA (updateA m.dialedConnections a (TCPConn.close btw).2) a =
      some (TCPConn.close btw).2 :=
    lookupA_updateA_self _ _ _ (by rw [hw]; rfl)
  have hupl : lookupA (updateA m.listeningSockets a { btl with shutdownClosed := true }) a =
      some { btl with shutdownClosed := true } :=
    lookupA_updateA_self _ _ _ (by rw [hl]; rfl)
  let m2 : Manager :=
    { m with dialedConnections := updateA m.dialedConnections a (TCPConn.close btw).2 }
  let m3 : Manager :=
    { m with listeningSockets :=
        updateA m.listeningSockets a { btl with shutdownClosed := true } }
  refine ⟨⟨m2, ?_, hupd, TCPConn.close_closed btw, ?_⟩, ⟨m3, ?_, hupl, ?_⟩, ?_, ?_⟩
  · unfold Manager.closeWriter
    rw [hw]
  · unfold Manager.dial
    rw [if_pos (by dsimp only; rw [hupd]; rfl)]
  · unfold Manager.closeListener
    rw [hl]
    simp [TCPListener.close, hlc]
  · unfold Manager.startListening
    rw [if_pos (by dsimp only; rw [hupl]; rfl)]
  · intro a2 h2
    unfold Manager.closeWriter
    rw [h2]
  · intro a2 h2
    unfold Manager.closeListener
    rw [h2]

/-- Witness for the amended C5, on a manager holding one open connection
and one open listener at address "a". -/
theorem close_ops_leave_entries_witness :
    (∃ m2, Manager.closeWriter
        ⟨[("a", ⟨"a", 1, 4, [0], [], false⟩)], [("a", ⟨false, false, 0⟩)]⟩ "a" =
        ((TCPConn.close ⟨"a", 1, 4, [0], [], false⟩).1, m2) ∧
      lookupA m2.dialedConnections "a" = some (TCPConn.close ⟨"a", 1, 4, [0], [], false⟩).2 ∧
      (TCPConn.close ⟨"a", 1, 4, [0], [], false⟩).2.socketClosed = true ∧
      (Manager.dial m2 ⟨4, "a"⟩ true).1 = some GoError.errAlreadyOpened) ∧
    (∃ m3, Manager.closeListener
        ⟨[("a", ⟨"a", 1, 4, [0], [], false⟩)], [("a", ⟨false, false, 0⟩)]⟩ "a" =
        .ret (none, m3) ∧
      lookupA m3.listeningSockets "a" =
        some { socketClosed := false, shutdownClosed := true, handlers := 0 } ∧
      (Manager.startListening m3 ⟨4, "a"⟩ true).1 = some GoError.errAlreadyOpened) ∧
    (∀ a2, lookupA ([("a", (⟨"a", 1, 4, [0], [], false⟩ : TCPConn))]) a2 = none →
      Manager.closeWriter
        ⟨[("a", ⟨"a", 1, 4, [0], [], false⟩)], [("a", ⟨false, false, 0⟩)]⟩ a2 =
        (some GoError.errNotOpened,
          ⟨[("a", ⟨"a", 1, 4, [0], [], false⟩)], [("a", ⟨false, false, 0⟩)]⟩)) ∧
    (∀ a2, lookupA ([("a", (⟨false, false, 0⟩ : TCPListener))]) a2 = none →
      Manager.closeListener
        ⟨[("a", ⟨"a", 1, 4, [0], [], false⟩)], [("a", ⟨false, false, 0⟩)]⟩ a2 =
        .ret (some GoError.errNotOpened,
          ⟨[("a", ⟨"a", 1, 4, [0], [], false⟩)], [("a", ⟨false, false, 0⟩)]⟩)) :=
  close_ops_leave_entries
    ⟨[("a", ⟨"a", 1, 4, [0], [], false⟩)], [("a", ⟨false, false, 0⟩)]⟩ "a"
    ⟨"a", 1, 4, [0], [], false⟩ ⟨false, false, 0⟩ 4 true true
    (by decide) (by decide) rfl

theorem closeListener_ret_keys (m : Manager) (a : String) (r : Option GoError × Manager)
    (hr : m.closeListener a = .ret r) :
    r.2.dialedConnections = m.dialedConnections ∧
    r.2.listeningSockets.map Prod.fst = m.listeningSockets.map Prod.fst := by
  unfold Manager.closeListener at hr
  rcases hy : lookupA m.listeningSockets a with _ | btl
  · rw [hy] at hr
    cases hr
    exact ⟨rfl, rfl⟩
  · rw [hy] at hr
    dsimp only at hr
    cases hcl : TCPListener.close btl with
    | panicked =>
      rw [hcl] at hr
      cases hr
    | ret btl2 =>
      rw [hcl] at hr
      cases hr
      exact ⟨rfl, updateA_keys _ _ _⟩

theorem applyOp_wf (m : Manager) (op : MOp) (h : m.wf) : (Manager.applyOp m op).wf := by
  obtain ⟨h1, h2⟩ := h
  cases op with
  | startListening cfg bindOK =>
    show ((m.startListening cfg bindOK).2).wf
    unfold Manager.startListening
    by_cases hx : (lookupA m.listeningSockets cfg.Address).isSome
    · rw [if_pos hx]
      exact ⟨h1, h2⟩
    · rw [if_neg hx]
      have hnone : lookupA m.listeningSockets cfg.Address = none := by
        cases hy : lookupA m.listeningSockets cfg.Address
        · rfl
        · rw [hy] at hx
          simp at hx
      cases hLT : ListenTCP cfg bindOK with
      | error e => exact ⟨h1, h2⟩
      | ok btl =>
        refine ⟨h1, ?_⟩
        simp only [List.map_cons, List.nodup_cons]
        exact ⟨not_mem_keys_of_lookupA_none _ _ hnone, h2⟩
  | closeListener a =>
    show (match m.closeListener a with
      | GoResult.panicked => m
      | GoResult.ret r => r.2).wf
    cases hcls : m.closeListener a with
    | panicked => exact ⟨h1, h2⟩
    | ret r =>
      obtain ⟨ha, hb⟩ := closeListener_ret_keys m a r hcls
      exact ⟨by rw [ha]; exact h1, by rw [hb]; exact h2⟩
  | dial cfg dialOK =>
    show ((m.dial cfg dialOK).2).wf
    unfold Manager.dial
    by_cases hx : (lookupA m.dialedConnections cfg.Address).isSome
    · rw [if_pos hx]
      exact ⟨h1, h2⟩
    · rw [if_neg hx]
      have hnone : lookupA m.dialedConnections cfg.Address = none := by
        cases hy : lookupA m.dialedConnections cfg.Address
        · rfl
        · rw [hy] at hx
          simp at hx
      cases hDT : DialTCP cfg dialOK with
      | error e => exact ⟨h1, h2⟩
      | ok btw =>
        refine ⟨?_, h2⟩
        simp only [List.map_cons, List.nodup_cons]
        exact ⟨not_mem_keys_of_lookupA_none _ _ hnone, h1⟩
  | closeWriter a =>
    show ((m.closeWriter a).2).wf
    unfold Manager.closeWriter
    cases hy : lookupA m.dialedConnections a with
    | none => exact ⟨h1, h2⟩
    | some btw =>
      refine ⟨?_, h2⟩
      show ((updateA m.dialedConnections a (TCPConn.close btw).2).map Prod.fst).Nodup
      rw [updateA_keys]
      exact h1
  | write a data sched dialOK =>
    show ((Manager.write m a data sched dialOK).2).wf
    unfold Manager.write
    cases hy : lookupA m.dialedConnections a with
    | none => exact ⟨h1, h2⟩
    | some btw =>
      dsimp only
      cases hw : (TCPConn.write btw sched data).1.1.2 with
      | none =>
        refine ⟨?_, h2⟩
        show ((updateA m.dialedConnections a (TCPConn.write btw sched data).1.2).map
          Prod.fst).Nodup
        rw [updateA_keys]
        exact h1
      | some e =>
        refine ⟨?_, h2⟩
        show ((updateA m.dialedConnections a
          (TCPConn.reopen (TCPConn.write btw sched data).1.2 dialOK).2).map Prod.fst).Nodup
        rw [updateA_keys]
        exact h1

/-- Claim C6: under every sequence of Manager operations starting from
`NewManager`, each map holds at most one entry per distinct address (the
key lists stay nodup), and a `Dial` (resp. `StartListening`) for an
address already present returns `ErrAlreadyOpened` while leaving the
whole state — in particular the first, stored entry — unchanged. -/
theorem manager_at_most_one_per_address :
    (∀ ops : List MOp, (ops.foldl Manager.applyOp NewManager).wf) ∧
    (∀ (m : Manager) (cfg : TCPConnConfig) (dialOK : Bool),
      (lookupA m.dialedConnections cfg.Address).isSome →
      Manager.dial m cfg dialOK = (some GoError.errAlreadyOpened, m)) ∧
    (∀ (m : Manager) (cfg : TCPListenerConfig) (bindOK : Bool),
      (lookupA m.listeningSockets cfg.Address).isSome →
      Manager.startListening m cfg bindOK = (some GoError.errAlreadyOpened, m)) := by
  refine ⟨?_, ?_, ?_⟩
  · intro ops
    have hstep : ∀ m, m.wf → (ops.foldl Manager.applyOp m).wf := by
      induction ops with
      | nil => exact fun m hm => hm
      | cons op rest ih => exact fun m hm => ih _ (applyOp_wf m op hm)
    exact hstep NewManager (by simp [NewManager, Manager.wf])
  · intro m cfg dialOK hx
    unfold Manager.dial
    rw [if_pos hx]
  · intro m cfg bindOK hx
    unfold Manager.startListening
    rw [if_pos hx]

/-- Witness for C6: a second `Dial` of the already-dialed address "a"
errors and leaves the state unchanged, and a run of two identical Dials
from `NewManager` keeps the maps' keys unique. -/
theorem manager_at_most_one_per_address_witness :
    Manager.dial ⟨[("a", ⟨"a", 1, 4, [0], [], false⟩)], []⟩ ⟨4, "a"⟩ true =
      (some GoError.errAlreadyOpened, ⟨[("a", ⟨"a", 1, 4, [0], [], false⟩)], []⟩) ∧
    ([MOp.dial ⟨4, "a"⟩ true, MOp.dial ⟨4, "a"⟩ true].foldl Manager.applyOp NewManager).wf :=
  ⟨manager_at_most_one_per_address.2.1 ⟨[("a", ⟨"a", 1, 4, [0], [], false⟩)], []⟩
      ⟨4, "a"⟩ true (by decide),
    manager_at_most_one_per_address.1 [MOp.dial ⟨4, "a"⟩ true, MOp.dial ⟨4, "a"⟩ true]⟩

/-- Claim C7: `Manager.Write` returns `(0, ErrNotOpened)` when the
address has not been dialed; and when the underlying connection write
fails, it calls that connection's `Reopen` — storing the reopened
connection back in the map — but still returns the original write error
with the bytes written so far. -/
theorem manager_write_not_opened_and_reopen (m : Manager) (a : String)
    (data : List Nat) (sched : List WStep) (dialOK : Bool) :
    (lookupA m.dialedConnections a = none →
      Manager.write m a data sched dialOK = ((0, some GoError.errNotOpened), m)) ∧
    (∀ btw n e, lookupA m.dialedConnections a = some btw →
      (TCPConn.write btw sched data).1.1 = (n, some e) →
      ∃ m2, Manager.write m a data sched dialOK = ((n, some e), m2) ∧
        m2.dialedConnections =
          updateA m.dialedConnections a
            (TCPConn.reopen (TCPConn.write btw sched data).1.2 dialOK).2 ∧
        m2.listeningSockets = m.listeningSockets) := by
  constructor
  · intro h
    unfold Manager.write
    rw [h]
  · intro btw n e hw hres
    unfold Manager.write
    rw [hw]
    dsimp only
    have h2 : (TCPConn.write btw sched data).1.1.2 = some e := by rw [hres]
    rw [h2, hres]
    exact ⟨_, rfl, rfl, rfl⟩

/-- Witness for C7: a manager with no entry at "b" reports not-opened,
and a failing write at "a" returns the transport error while storing the
reopened connection. -/
theorem manager_write_not_opened_and_reopen_witness :
    Manager.write ⟨[("a", ⟨"a", 1, 4, [0], [], false⟩)], []⟩ "b" [1] [WStep.fail] true =
      ((0, some GoError.errNotOpened), ⟨[("a", ⟨"a", 1, 4, [0], [], false⟩)], []⟩) ∧
    (∃ m2, Manager.write ⟨[("a", ⟨"a", 1, 4, [0], [], false⟩)], []⟩ "a" [1] [WStep.fail]
        true = ((0, some GoError.errBrokenPipe), m2) ∧
      m2.dialedConnections =
        updateA [("a", ⟨"a", 1, 4, [0], [], false⟩)] "a"
          (TCPConn.reopen
            (TCPConn.write ⟨"a", 1, 4, [0], [], false⟩ [WStep.fail] [1]).1.2 true).2 ∧
      m2.listeningSockets = ([] : List (String × TCPListener))) :=
  ⟨(manager_write_not_opened_and_reopen ⟨[("a", ⟨"a", 1, 4, [0], [], false⟩)], []⟩ "b"
      [1] [WStep.fail] true).1 (by decide),
    (manager_write_not_opened_and_reopen ⟨[("a", ⟨"a", 1, 4, [0], [], false⟩)], []⟩ "a"
      [1] [WStep.fail] true).2 ⟨"a", 1, 4, [0], [], false⟩ 0 GoError.errBrokenPipe
      (by decide) (by decide)⟩

theorem writeLoopTr_sockWrites (sched : List WStep) (pending : List Nat) :
    ∀ act ∈ (writeLoopTr sched pending).2, ∃ ch, act = WAction.sockWrite ch := by
  induction sched generalizing pending with
  | nil =>
    intro act hact
    cases pending with
    | nil => simp [writeLoopTr] at hact
    | cons p ps =>
      simp only [writeLoopTr, List.mem_singleton] at hact
      exact ⟨_, hact⟩
  | cons step rest ih =>
    intro act hact
    cases pending with
    | nil => simp [writeLoopTr] at hact
    | cons p ps =>
      cases step with
      | accept k =>
        simp only [writeLoopTr] at hact
        rcases List.mem_cons.mp hact with h | h
        · exact ⟨_, h⟩
        · exact ih _ act h
      | fail => simp [writeLoopTr] at hact

theorem write_trace_sockWrites (c : TCPConn) (sched : List WStep) (data : List Nat) :
    ∀ act ∈ (TCPConn.write c sched data).2, ∃ ch, act = WAction.sockWrite ch := by
  intro act hact
  unfold TCPConn.write at hact
  dsimp only at hact
  by_cases hcl : c.socketClosed
  · rw [if_pos hcl] at hact
    simp at hact
  · rw [if_neg hcl] at hact
    by_cases he : (writeLoopTr sched (intToByteArray data.length c.headerByteSize ++ data)).1.2
        = none
    · rw [if_pos he] at hact
      exact writeLoopTr_sockWrites _ _ act hact
    · rw [if_neg he] at hact
      exact writeLoopTr_sockWrites _ _ act hact

/-- Claim C9 fails on the code (a code bug): `TCPConn.Write`
(src/unnamed/part_017 lines 122-165) never acquires `c.writeLock` — the
declared lock is never used, so the action trace of every `Write`
contains no lock operation at all — and consequently nothing serializes
concurrent Sends: a concrete two-thread schedule of two Writes (3-byte
frames, delivered in a 1-byte then a 2-byte socket write each) is
feasible under the lock discipline yet interleaves the bytes of the two
frames on the socket, which the claim asserts can never happen. -/
theorem write_unlocked_interleaving :
    (∀ (c : TCPConn) (sched : List WStep) (data : List Nat),
      WAction.lockAcquire ∉ (TCPConn.write c sched data).2 ∧
      WAction.lockRelease ∉ (TCPConn.write c sched data).2) ∧
    (∃ s : List (Bool × WAction),
      threadActions true s =
        (TCPConn.write ⟨"a", 1, 4, [0], [], false⟩ [WStep.accept 1, WStep.accept 2]
          [10, 11]).2 ∧
      threadActions false s =
        (TCPConn.write ⟨"b", 1, 4, [0], [], false⟩ [WStep.accept 1, WStep.accept 2]
          [20, 21]).2 ∧
      lockFeasible none s = true ∧
      framesContiguous (writeTags s) = false) := by
  constructor
  · intro c sched data
    constructor <;>
    · intro hmem
      obtain ⟨ch, hch⟩ := write_trace_sockWrites c sched data _ hmem
      exact absurd hch (by simp)
  · refine ⟨[(true, .sockWrite [2]), (false, .sockWrite [2]),
      (true, .sockWrite [10, 11]), (false, .sockWrite [20, 21])], ?_, ?_, ?_, ?_⟩
    · decide
    · decide
    · decide
    · decide

/-- Witness for C9's no-lock property, at a concrete write. -/
theorem write_unlocked_interleaving_witness :
    WAction.lockAcquire ∉ (TCPConn.write ⟨"a", 1, 4, [0], [], false⟩ [WStep.accept 1] [9]).2 ∧
    WAction.lockRelease ∉ (TCPConn.write ⟨"a", 1, 4, [0], [], false⟩ [WStep.accept 1] [9]).2 :=
  write_unlocked_interleaving.1 ⟨"a", 1, 4, [0], [], false⟩ [WStep.accept 1] [9]
